import Mathlib

/-!
Verification development for the project-analysis core of the
database-manager-mcp-Server repository.

The TypeScript source is shallowly embedded: every analysis function is
translated into an executable Lean definition over explicit data
(filesystem trees, file contents as strings, extraction results), and the
I/O layer (directory listing, file reading, tree-sitter parsing) is
replaced by explicit parameters holding the data those calls would return.
JavaScript strings are modelled as Lean `String`; all string scanning is
implemented over `String.data : List Char` so that every definition
reduces in the kernel.  JavaScript numbers appearing here are
non-negative integers (counters, sizes, line numbers) and are modelled as
`Nat`, except brace balances which may go negative and are `Int`, and
percentages which are exact rationals `ℚ` (the source computes them with
floating-point division; all inputs used in concrete theorems are small
enough that the float arithmetic is exact).
-/

set_option maxRecDepth 400000

/-! ## String primitives (JavaScript string operations) -/

/-- Substring occurrence of `pat` in `s` at some position, as
`String.prototype.includes`: auxiliary scan over the character list. -/
def hasSubChars (pat : List Char) : List Char → Bool
  | [] => pat.isEmpty
  | c :: rest => pat.isPrefixOf (c :: rest) || hasSubChars pat rest

/-- JavaScript `s.includes(pat)`. -/
def hasSub (s pat : String) : Bool :=
  hasSubChars pat.data s.data

/-- JavaScript `s.startsWith(pat)`. -/
def startsWithStr (s pat : String) : Bool :=
  pat.data.isPrefixOf s.data

/-- JavaScript `s.endsWith(pat)`. -/
def endsWithStr (s pat : String) : Bool :=
  pat.data.reverse.isPrefixOf s.data.reverse

/-- Characters treated as whitespace by the JavaScript operations used in
the source (`trim`, `\s`); the files under analysis only contain ASCII
whitespace, for which this agrees with the JavaScript semantics. -/
def isWsChar (c : Char) : Bool :=
  c == ' ' || c == '\t' || c == '\n' || c == '\r'

/-- JavaScript `s.trim()`. -/
def trimStr (s : String) : String :=
  String.mk (((s.data.dropWhile isWsChar).reverse.dropWhile isWsChar).reverse)

/-- JavaScript `s.toLowerCase()` (ASCII). -/
def toLowerStr (s : String) : String :=
  String.mk (s.data.map Char.toLower)

/-- Auxiliary scan for `String.prototype.split` with a one-character
separator, carrying the reversed current chunk. -/
def splitAux (sep : Char) : List Char → List Char → List String
  | [], acc => [String.mk acc.reverse]
  | c :: rest, acc =>
    if c == sep then String.mk acc.reverse :: splitAux sep rest []
    else splitAux sep rest (c :: acc)

/-- JavaScript `content.split('\n')`. -/
def splitLines (content : String) : List String :=
  splitAux '\n' content.data []

/-- JavaScript `Array.prototype.join(sep)`. -/
def joinWith (sep : String) : List String → String
  | [] => ""
  | [x] => x
  | x :: y :: rest => x ++ sep ++ joinWith sep (y :: rest)

/-- Word characters of the JavaScript regex class `\w`: `[A-Za-z0-9_]`. -/
def isWordChar (c : Char) : Bool :=
  c.isAlpha || c.isDigit || c == '_'

/-- Decimal value of a digit string, as `parseInt` on an all-digit match. -/
def digitsToNat (s : String) : Nat :=
  s.data.foldl (fun n c => n * 10 + (c.toNat - 48)) 0

/-! ## file-utils.ts -/

/-- Abstract listing of one directory as returned by `fs.readdir` with
`withFileTypes`: each entry is a file with its byte size (`fs.stat`), or a
subdirectory with its own listing.  This is the filesystem abstraction
consumed by the scanner. -/
inductive FsEntry where
  | file (name : String) (size : Nat)
  | dir (name : String) (entries : List FsEntry)

/-- Node of the scanned project tree (`FileNode` in types/index.ts).  In
the source, `size`/`extension`/`language` are set exactly for files and
`children` exactly for directories, so the two shapes are modelled as two
constructors.  The `path` field (absolute path) is dropped here: the
claims under verification never inspect it, and the remaining fields
determine it only up to the root prefix. -/
inductive FileNode where
  | file (name : String) (size : Nat) (extension : String) (language : String)
  | directory (name : String) (children : List FileNode)

/-- Condition of `buildFileTree` for skipping an entry: hidden entries
(leading dot) and the fixed ignore names. -/
def shouldIgnore (name : String) : Bool :=
  startsWithStr name "." || name == "node_modules" || name == "dist" || name == "build"

/-- Model of `path.extname(filePath).slice(1)` (no lowercasing yet):
extension of the basename after its last dot; empty when the basename has
no dot or only a leading dot. -/
def extnameSlice1 (filePath : String) : String :=
  let base := (splitAux '/' filePath.data []).getLastD ""
  let rev := base.data.reverse
  let after := rev.takeWhile (fun c => !(c == '.'))
  if after.length == rev.length then ""
  else if base.data.length == after.length + 1 then ""
  else String.mk after.reverse

/-- `getFileExtension` from file-utils.ts. -/
def getFileExtension (filePath : String) : String :=
  toLowerStr (extnameSlice1 filePath)

/-- `detectLanguage` from file-utils.ts: extension-to-language table. -/
def detectLanguage (filePath : String) : String :=
  let ext := getFileExtension filePath
  if ext == "js" then "JavaScript"
  else if ext == "jsx" then "JavaScript"
  else if ext == "ts" then "TypeScript"
  else if ext == "tsx" then "TypeScript"
  else if ext == "py" then "Python"
  else if ext == "java" then "Java"
  else if ext == "go" then "Go"
  else if ext == "rs" then "Rust"
  else if ext == "json" then "JSON"
  else if ext == "md" then "Markdown"
  else if ext == "html" then "HTML"
  else if ext == "css" then "CSS"
  else if ext == "scss" then "SCSS"
  else if ext == "xml" then "XML"
  else if ext == "yaml" then "YAML"
  else if ext == "yml" then "YAML"
  else "Unknown"

mutual

/-- `buildFileTree` from file-utils.ts: returns `[]` once
`currentDepth >= maxDepth`, otherwise converts the directory listing. -/
def buildFileTree (dirPath : String) (maxDepth currentDepth : Nat) (entries : List FsEntry) : List FileNode :=
  if currentDepth ≥ maxDepth then []
  else buildNodes dirPath maxDepth currentDepth entries

/-- Loop body of `buildFileTree` over the directory entries: skips ignored
names, recurses into subdirectories with `currentDepth + 1`. -/
def buildNodes (dirPath : String) (maxDepth currentDepth : Nat) : List FsEntry → List FileNode
  | [] => []
  | FsEntry.file name size :: rest =>
    if shouldIgnore name then buildNodes dirPath maxDepth currentDepth rest
    else
      FileNode.file name size (getFileExtension (dirPath ++ "/" ++ name))
        (detectLanguage (dirPath ++ "/" ++ name)) ::
        buildNodes dirPath maxDepth currentDepth rest
  | FsEntry.dir name sub :: rest =>
    if shouldIgnore name then buildNodes dirPath maxDepth currentDepth rest
    else
      FileNode.directory name
        (buildFileTree (dirPath ++ "/" ++ name) maxDepth (currentDepth + 1) sub) ::
        buildNodes dirPath maxDepth currentDepth rest

end

/-- `getDirectorySize` from file-utils.ts: a second, independent walk.
Only subdirectories named `node_modules`, `dist` or `build` are skipped;
every file entry is counted. -/
def getDirectorySize : List FsEntry → Nat
  | [] => 0
  | FsEntry.dir name sub :: rest =>
    (if name == "node_modules" || name == "dist" || name == "build" then 0
     else getDirectorySize sub) + getDirectorySize rest
  | FsEntry.file _ size :: rest => size + getDirectorySize rest

/-! ## FileAnalyzer (file-analyzer.ts) -/

/-- `FileAnalyzer.countFiles`: counts file-kind nodes, recursing into
`children`. -/
def countFiles : List FileNode → Nat
  | [] => 0
  | FileNode.file _ _ _ _ :: rest => 1 + countFiles rest
  | FileNode.directory _ cs :: rest => countFiles cs + countFiles rest

/-- One step of the language map update in `processNodeSync`: the
`Map.set` of `{files: current.files + 1, lines: current.lines}` on a
JavaScript `Map`, which keeps first-insertion key order.  The association
list stores `(language, (files, lines))`. -/
def bumpLanguage : List (String × Nat × Nat) → String → List (String × Nat × Nat)
  | [], lang => [(lang, 1, 0)]
  | (l, f, ln) :: rest, lang =>
    if l == lang then (l, f + 1, ln) :: rest
    else (l, f, ln) :: bumpLanguage rest lang

/-- `processNodeSync` folded over a node list: counts each file node whose
language is set (truthy) and not `"Unknown"`, then recurses into children.
`lines` stays 0 in this pass, as in the source. -/
def collectLanguageCounts : List FileNode → List (String × Nat × Nat) → List (String × Nat × Nat)
  | [], acc => acc
  | FileNode.file _ _ _ lang :: rest, acc =>
    collectLanguageCounts rest
      (if !(lang == "") && !(lang == "Unknown") then bumpLanguage acc lang else acc)
  | FileNode.directory _ cs :: rest, acc =>
    collectLanguageCounts rest (collectLanguageCounts cs acc)

/-- `LanguageStats` from types/index.ts (percentage exact, see header). -/
structure LanguageStats where
  language : String
  files : Nat
  lines : Nat
  percentage : ℚ
deriving DecidableEq

/-- `FileAnalyzer.analyzeLanguages`. -/
def analyzeLanguages (nodes : List FileNode) : List LanguageStats :=
  let counts := collectLanguageCounts nodes []
  let totalFiles : Nat := (counts.map (fun p => p.2.1)).foldl (· + ·) 0
  counts.map (fun p =>
    { language := p.1
      files := p.2.1
      lines := p.2.2
      percentage := if 0 < totalFiles then (p.2.1 : ℚ) / (totalFiles : ℚ) * 100 else 0 })

/-- `ProjectStructure` from types/index.ts. -/
structure ProjectStructure where
  path : String
  files : List FileNode
  totalFiles : Nat
  totalSize : Nat
  languages : List LanguageStats

/-- `FileAnalyzer.analyzeProjectStructure`.  `rootExists` models the
`fs.pathExists` probe on the resolved root, `entries` is that directory's
listing. -/
def analyzeProjectStructure (rootExists : Bool) (entries : List FsEntry)
    (projectPath : String) (maxDepth : Nat) : Except String ProjectStructure :=
  if !rootExists then
    Except.error ("Project path does not exist: " ++ projectPath)
  else
    let files := buildFileTree projectPath maxDepth 0 entries
    Except.ok
      { path := projectPath
        files := files
        totalFiles := countFiles files
        totalSize := getDirectorySize entries
        languages := analyzeLanguages files }

/-! ## DependencyAnalyzer (dependency-analyzer.ts) -/

/-- One analyzable file as seen by `analyzeDependencies`:
`name` is `path.basename(file)`, `relPath` is
`path.relative(absolutePath, file)` (the node key), and `parsed` holds
the import strings produced by `parseFile` + `extractImports`; `none` models a
`null` tree or a thrown extraction error, both of which make the loop skip
the file. -/
structure SourceFile where
  name : String
  relPath : String
  parsed : Option (List String)

/-- `DependencyNode` from types/index.ts. -/
structure DependencyNode where
  name : String
  path : String
  imports : List String
  exports : List String
  dependencies : List String

/-- One edge of the dependency graph; the source object is
`{from, to, type}` (`from` and `to` are reserved words in Lean, renamed
`frm` and `tgt`). -/
structure Edge where
  frm : String
  tgt : String
  type : String

/-- `DependencyGraph` from types/index.ts. -/
structure DependencyGraph where
  nodes : List DependencyNode
  edges : List Edge
  circular : List (List String)

/-- Loop of `analyzeDependencies` over `filesToAnalyze`: skips unparsable
files, otherwise appends one node and one `import` edge per import. -/
def buildDependencyData (files : List SourceFile) : List DependencyNode × List Edge :=
  files.foldl
    (fun acc sf =>
      match sf.parsed with
      | none => acc
      | some imports =>
        (acc.1 ++ [{ name := sf.name, path := sf.relPath, imports := imports,
                     exports := [], dependencies := imports }],
         acc.2 ++ imports.map (fun imp => { frm := sf.relPath, tgt := imp, type := "import" })))
    ([], [])

/-- Adjacency-list update of `detectCircularDependencies`: `Map.get(from).push(to)`
with first-insertion key order. -/
def addEdge : List (String × List String) → String → String → List (String × List String)
  | [], frm, tgt => [(frm, [tgt])]
  | (k, vs) :: rest, frm, tgt =>
    if k == frm then (k, vs ++ [tgt]) :: rest
    else (k, vs) :: addEdge rest frm tgt

/-- The `edges.forEach` fold building the adjacency list. -/
def buildAdjacency (edges : List Edge) : List (String × List String) :=
  edges.foldl (fun g e => addEdge g e.frm e.tgt) []

/-- Mutable state of the cycle-detection DFS that survives a call:
the global `visited` set and the accumulated `circular` list.  The
`recStack` set and `path` list are passed separately because the source
restores them on exit from each call (push before the neighbor loop, pop
after), so a call leaves them unchanged. -/
structure DfsState where
  visited : List String
  circular : List (List String)

/-- The recursive `dfs` of `detectCircularDependencies`.  `fuel` only
bounds the recursion depth for Lean's termination checker; the source
recursion is bounded by the `visited` set, so any fuel at least the
number of distinct node keys plus one computes the same result (all
theorems below evaluate it on concrete graphs). -/
def dfs (fuel : Nat) (g : List (String × List String)) (node : String)
    (recStack path : List String) (st : DfsState) : DfsState :=
  match fuel with
  | 0 => st
  | Nat.succ fuel =>
    if recStack.contains node then
      match path.findIdx? (fun p => p == node) with
      | some i => { st with circular := st.circular ++ [path.drop i ++ [node]] }
      | none => st
    else if st.visited.contains node then st
    else
      let st1 : DfsState := { st with visited := st.visited ++ [node] }
      let recStack1 := recStack ++ [node]
      let path1 := path ++ [node]
      let neighbors := (g.lookup node).getD []
      neighbors.foldl (fun s nb => dfs fuel g nb recStack1 path1 s) st1

/-- `DependencyAnalyzer.detectCircularDependencies`. -/
def detectCircularDependencies (nodes : List DependencyNode) (edges : List Edge) : List (List String) :=
  let g := buildAdjacency edges
  let fuel := nodes.length + edges.length + 1
  (nodes.foldl
    (fun (st : DfsState) (n : DependencyNode) =>
      if st.visited.contains n.path then st else dfs fuel g n.path [] [] st)
    { visited := [], circular := [] }).circular

/-- `DependencyAnalyzer.analyzeDependencies`.  `rootExists` models
`fs.pathExists` on the resolved project path.  `fileSel` models the
optional explicit `filePath` argument: `some (ex, sf)` means a file path
was given, `ex` is its `fs.pathExists` result and `sf` its analysis data
— when `ex` is false the source silently leaves `filesToAnalyze` empty.
`projectFiles` is the `findFiles` result for the code-extension patterns
when no explicit file is given. -/
def analyzeDependencies (projectPath : String) (rootExists : Bool)
    (fileSel : Option (Bool × SourceFile)) (projectFiles : List SourceFile) :
    Except String DependencyGraph :=
  if !rootExists then
    Except.error ("Project path does not exist: " ++ projectPath)
  else
    let filesToAnalyze :=
      match fileSel with
      | some (ex, sf) => if ex then [sf] else []
      | none => projectFiles
    let data := buildDependencyData filesToAnalyze
    Except.ok
      { nodes := data.1
        edges := data.2
        circular := detectCircularDependencies data.1 data.2 }

/-! ## CodeAnalyzer: cyclomatic complexity (file-analyzer.ts) -/

/-- Function declaration as produced by the Source Extractor
(`extractFunctions`): name and 1-based source line. -/
structure FuncInfo where
  name : String
  line : Nat
deriving DecidableEq

/-- `CodeComplexity` from types/index.ts (the score field is named
`complexity` in the source object). -/
structure CodeComplexity where
  file : String
  function : Option String
  complexity : Nat
  level : String
  recommendations : List String
deriving DecidableEq

/-- The decision keywords of `calculateComplexity` and its fallback. -/
def decisionKeywords : List String :=
  ["if", "else", "while", "for", "switch", "case", "catch", "&&", "||", "?", "??"]

/-- Inner keyword loop of the counting pass: one increment per keyword
that occurs (as a substring) in the line — `line.includes(keyword)` is a
boolean test, so repeated occurrences of one keyword in a line still
increment only once. -/
def lineDecisionCount (line : String) : Nat :=
  (decisionKeywords.filter (fun k => hasSub line k)).length

/-- The counting loop `for (let i = startLine; i < endLine; i++)` summed
over the designated slice of the line list. -/
def countDecisions (lines : List String) (startLine endLine : Nat) : Nat :=
  (((lines.take endLine).drop startLine).map lineDecisionCount).foldl (· + ·) 0

/-- `complexity <= 5 ? low : <= 10 ? medium : <= 20 ? high : very-high`. -/
def complexityLevel (c : Nat) : String :=
  if c ≤ 5 then "low"
  else if c ≤ 10 then "medium"
  else if c ≤ 20 then "high"
  else "very-high"

/-- Recommendation accumulation: two generic entries above 10, one more
above 20. -/
def complexityRecommendations (c : Nat) : List String :=
  (if c > 10 then
    ["Consider breaking this function into smaller functions",
     "Extract complex conditions into named functions"]
   else []) ++
  (if c > 20 then ["This function is too complex and should be refactored"] else [])

/-- End-of-function search of the structured branch: first line after
`startLine` whose trimmed text starts with `function`, `const` or
`class`; defaults to `lines.length`. -/
def findEndLine (lines : List String) (startLine : Nat) : Nat :=
  match (lines.drop (startLine + 1)).findIdx?
      (fun l =>
        startsWithStr (trimStr l) "function" || startsWithStr (trimStr l) "const" ||
          startsWithStr (trimStr l) "class") with
  | some k => startLine + 1 + k
  | none => lines.length

/-- `CodeAnalyzer.calculateComplexity`, structured branch (`parseFile`
returned a tree).  `functions` is the Source Extractor output for the
file, `lines` the file content split on newlines.  A requested function
name absent from `functions` throws. -/
def calculateComplexity (functions : List FuncInfo) (lines : List String)
    (functionName : Option String) (filePath : String) : Except String CodeComplexity :=
  match functionName with
  | some n =>
    match functions.find? (fun f => f.name == n) with
    | none => Except.error ("Function " ++ n ++ " not found in " ++ filePath)
    | some tf =>
      let startLine := tf.line - 1
      let endLine := findEndLine lines startLine
      let c := 1 + countDecisions lines startLine endLine
      Except.ok
        { file := filePath, function := some n, complexity := c,
          level := complexityLevel c, recommendations := complexityRecommendations c }
  | none =>
    let c := 1 + countDecisions lines 0 lines.length
    Except.ok
      { file := filePath, function := none, complexity := c,
        level := complexityLevel c, recommendations := complexityRecommendations c }

/-- Line predicate of the fallback function search: the literal substrings
`function <name>`, `<name>(` or `const <name> =`. -/
def fallbackMatchLine (n : String) (line : String) : Bool :=
  hasSub line ("function " ++ n) || hasSub line (n ++ "(") || hasSub line ("const " ++ n ++ " =")

/-- Inner loop of the fallback end-of-function search: first index `j`
(walking the suffix starting at index `j0`) whose trimmed line equals
`}` with `j > i + 3`; the loop leaves `endLine` untouched otherwise. -/
def findCloseBrace : List String → Nat → Nat → Nat → Nat
  | [], _, _, len => len
  | l :: rest, j, i, len =>
    if trimStr l == "\x7d" && j > i + 3 then j
    else findCloseBrace rest (j + 1) i len

/-- The `(startLine, endLine)` selection of `calculateComplexityFallback`:
first line matching the textual patterns starts the range; the close-brace
search (if successful) ends it; with no match the whole file is scanned. -/
def fallbackRange (lines : List String) (n : String) : Nat × Nat :=
  match lines.findIdx? (fallbackMatchLine n) with
  | none => (0, lines.length)
  | some i => (i, findCloseBrace (lines.drop (i + 1)) (i + 1) i lines.length)

/-- `CodeAnalyzer.calculateComplexityFallback` (regex fallback when
tree-sitter is unavailable).  Note it never fails: an absent function
name simply leaves the whole-file range. -/
def calculateComplexityFallback (lines : List String) (functionName : Option String)
    (filePath : String) : CodeComplexity :=
  let range :=
    match functionName with
    | some n => fallbackRange lines n
    | none => (0, lines.length)
  let c := 1 + countDecisions lines range.1 range.2
  { file := filePath, function := functionName, complexity := c,
    level := complexityLevel c, recommendations := complexityRecommendations c }

/-! ## CodeAnalyzer: function-start regexes (isFunctionStart) -/

/-- Literal-prefix step of the anchored regex models: consume `pat` at the
head of `cs` or fail. -/
def dropLit (pat : String) (cs : List Char) : Option (List Char) :=
  if pat.data.isPrefixOf cs then some (cs.drop pat.data.length) else none

/-- Regex `\s*`: greedy whitespace skip (safe because every token that
follows in the patterns below begins with a non-whitespace character). -/
def dropWs0 (cs : List Char) : List Char :=
  cs.dropWhile isWsChar

/-- Regex `\s+`: at least one whitespace character, then greedy skip. -/
def dropWs1 (cs : List Char) : Option (List Char) :=
  match cs with
  | c :: rest => if isWsChar c then some (rest.dropWhile isWsChar) else none
  | [] => none

/-- Regex `\w` at the head of the remaining input (enough for a trailing
`\w+` in a test). -/
def hasWord1 (cs : List Char) : Bool :=
  match cs with
  | c :: _ => isWordChar c
  | [] => false

/-- Regex `\w+`: at least one word character, then greedy munch (safe
because it is always followed by whitespace or `(` in the patterns). -/
def dropWord1 (cs : List Char) : Option (List Char) :=
  if hasWord1 cs then some (cs.dropWhile isWordChar) else none

/-- Trailing `\s+\w+` of the JavaScript/TypeScript pattern. -/
def wsWordTail (cs : List Char) : Bool :=
  match dropWs1 cs with
  | some r => hasWord1 r
  | none => false

/-- One alternative `kw\s+\w+` anchored at the head. -/
def kwWordAlt (kw : String) (cs : List Char) : Bool :=
  match dropLit kw cs with
  | some r => wsWordTail r
  | none => false

/-- The JavaScript/TypeScript function-start test:
`/^(function|const|let|export\s+(function|const|let)|async\s+function)\s+\w+/`
or `/^export\s+default\s+function/`. -/
def jsFuncStart (cs : List Char) : Bool :=
  kwWordAlt "function" cs || kwWordAlt "const" cs || kwWordAlt "let" cs ||
  (match dropLit "export" cs with
   | some r =>
     match dropWs1 r with
     | some r2 => kwWordAlt "function" r2 || kwWordAlt "const" r2 || kwWordAlt "let" r2
     | none => false
   | none => false) ||
  (match dropLit "async" cs with
   | some r =>
     match dropWs1 r with
     | some r2 => kwWordAlt "function" r2
     | none => false
   | none => false) ||
  (match dropLit "export" cs with
   | some r =>
     match dropWs1 r with
     | some r2 =>
       match dropLit "default" r2 with
       | some r3 =>
         match dropWs1 r3 with
         | some r4 => (dropLit "function" r4).isSome
         | none => false
       | none => false
     | none => false
   | none => false)

/-- The Python function-start test: `/^def\s+\w+/` or `/^async\s+def\s+\w+/`. -/
def pyFuncStart (cs : List Char) : Bool :=
  kwWordAlt "def" cs ||
  (match dropLit "async" cs with
   | some r =>
     match dropWs1 r with
     | some r2 => kwWordAlt "def" r2
     | none => false
   | none => false)

/-- One choice of the optional groups in the Java pattern
`/^\s*(public|private|protected)?\s*(static)?\s*\w+\s+\w+\s*\(/`:
`kw` is the access-modifier group when present, `st` whether `(static)?`
is taken.  The remaining greedy matches are deterministic. -/
def javaCombo (kw : Option String) (st : Bool) (cs : List Char) : Bool :=
  let r0 := dropWs0 cs
  let r1 := match kw with | some k => dropLit k r0 | none => some r0
  match r1 with
  | none => false
  | some r2 =>
    let r3 := dropWs0 r2
    let r4 := if st then dropLit "static" r3 else some r3
    match r4 with
    | none => false
    | some r5 =>
      let r6 := dropWs0 r5
      match dropWord1 r6 with
      | none => false
      | some r7 =>
        match dropWs1 r7 with
        | none => false
        | some r8 =>
          match dropWord1 r8 with
          | none => false
          | some r9 => (dropWs0 r9).head? == some '('

/-- The Java function-start test: the regex matches exactly when some
choice of its two optional groups matches. -/
def javaFuncStart (cs : List Char) : Bool :=
  ([none, some "public", some "private", some "protected"].any fun kw =>
    javaCombo kw true cs || javaCombo kw false cs)

/-- The Go function-start test: `/^func\s+/`. -/
def goFuncStart (cs : List Char) : Bool :=
  match dropLit "func" cs with
  | some r => (dropWs1 r).isSome
  | none => false

/-- The Rust function-start test: `/^fn\s+\w+/` or `/^pub\s+fn\s+\w+/`. -/
def rustFuncStart (cs : List Char) : Bool :=
  kwWordAlt "fn" cs ||
  (match dropLit "pub" cs with
   | some r =>
     match dropWs1 r with
     | some r2 => kwWordAlt "fn" r2
     | none => false
   | none => false)

/-- `CodeAnalyzer.isFunctionStart`: trims the line, then applies the
language-specific anchored regex. -/
def isFunctionStart (line : String) (language : String) : Bool :=
  let t := (trimStr line).data
  if language == "JavaScript" || language == "TypeScript" then jsFuncStart t
  else if language == "Python" then pyFuncStart t
  else if language == "Java" then javaFuncStart t
  else if language == "Go" then goFuncStart t
  else if language == "Rust" then rustFuncStart t
  else false

/-! ## CodeAnalyzer: code smells (detectCodeSmells) -/

/-- `CodeSmell` from types/index.ts (`line` is optional). -/
structure CodeSmell where
  type : String
  severity : String
  file : String
  line : Option Nat
  message : String
  recommendation : String
deriving DecidableEq

/-- Net brace balance of one line:
`(line.match(/{/g) || []).length - (line.match(/}/g) || []).length`. -/
def braceDelta (line : String) : Int :=
  (line.data.count '{' : Int) - (line.data.count '}' : Int)

/-- Inner `for (let j = i; ...)` of the long-method scan, walking the
suffix of the line list that starts at the outer index: tracks
`inFunction`, `functionLength` and `braceCount`, and returns the function
length at the `break` (balance back to zero after more than one line), or
`none` when the loop runs off the end of the file. -/
def longMethodInner (language : String) : List String → Bool → Nat → Int → Option Nat
  | [], _, _, _ => none
  | l :: rest, inF, fl, bc =>
    let inF2 := inF || isFunctionStart l language
    if inF2 then
      let fl2 := fl + 1
      let bc2 := bc + braceDelta l
      if bc2 == 0 && fl2 > 1 then some fl2
      else longMethodInner language rest inF2 fl2 bc2
    else longMethodInner language rest inF2 fl bc

/-- Outer `for (let i = 0; ...)` of the long-method scan: at every
function-start line, runs the inner scan on the suffix beginning there
and reports a Long Method smell when the measured length exceeds 50
(severity `high` above 100). -/
def longMethodGo (language file : String) : List String → Nat → List CodeSmell → List CodeSmell
  | [], _, acc => acc
  | l :: rest, i, acc =>
    if isFunctionStart l language then
      let acc2 :=
        match longMethodInner language (l :: rest) false 0 0 with
        | some fl =>
          if fl > 50 then
            acc ++ [{ type := "Long Method",
                      severity := if fl > 100 then "high" else "medium",
                      file := file, line := some (i + 1),
                      message := "Function is " ++ toString fl ++
                        " lines long (threshold: 50)",
                      recommendation := "Break this function into smaller, more focused functions" }]
          else acc
        | none => acc
      longMethodGo language file rest (i + 1) acc2
    else longMethodGo language file rest (i + 1) acc

/-- Long Method pass of `detectCodeSmells` for one file. -/
def longMethodSmells (language file : String) (lines : List String) : List CodeSmell :=
  longMethodGo language file lines 0 []

/-- Emission step of the magic-number scan: a completed maximal digit run
matches `/\b\d{3,}\b/` exactly when it has length at least three and the
characters adjacent to it (when they exist) are not word characters. -/
def flushRun (before : Option Char) (run : List Char) (next : Option Char) : List String :=
  if run.length ≥ 3 &&
      (match before with | none => true | some p => !isWordChar p) &&
      (match next with | none => true | some n => !isWordChar n) then
    [String.mk run]
  else []

/-- Single-pass scan for the global matches of `/\b\d{3,}\b/g`: walks the
line once, accumulating the current digit run (reversed) and remembering
the character immediately before it. -/
def magicRunsGo : List Char → Option Char → List Char → List String
  | [], before, run => flushRun before run.reverse none
  | c :: rest, before, run =>
    if c.isDigit then magicRunsGo rest before (c :: run)
    else flushRun before run.reverse (some c) ++ magicRunsGo rest (some c) []

/-- Global matches of the magic-number regex `/\b\d{3,}\b/g` in one line:
the maximal digit runs of length at least three whose neighbouring
characters (if any) are not word characters. -/
def magicRuns (cs : List Char) : List String :=
  magicRunsGo cs none []

/-- Magic Number pass of `detectCodeSmells` for one file: each qualifying
match on a line free of `//`, `const` and `let`, whose numeric value
exceeds 10, yields one low-severity smell. -/
def magicNumberGo (file : String) : List String → Nat → List CodeSmell → List CodeSmell
  | [], _, acc => acc
  | l :: rest, idx, acc =>
    let ms := magicRuns l.data
    let acc2 :=
      if !ms.isEmpty && !hasSub l "//" && !hasSub l "const" && !hasSub l "let" then
        acc ++ ms.filterMap (fun m =>
          if digitsToNat m > 10 then
            some { type := "Magic Number", severity := "low", file := file,
                   line := some (idx + 1),
                   message := "Magic number detected: " ++ m,
                   recommendation := "Replace with a named constant" }
          else none)
      else acc
    magicNumberGo file rest (idx + 1) acc2

/-- Magic Number pass entry point. -/
def magicNumberSmells (file : String) (lines : List String) : List CodeSmell :=
  magicNumberGo file lines 0 []

/-- Single-pass scan for `body.replace(/\s+/g, ' ')`: the flag records
whether the previous character belonged to a whitespace run (whose first
character already emitted the single space). -/
def collapseWsGo : List Char → Bool → List Char
  | [], _ => []
  | c :: rest, inWs =>
    if isWsChar c then
      (if inWs then collapseWsGo rest true else ' ' :: collapseWsGo rest true)
    else c :: collapseWsGo rest false

/-- JavaScript `body.replace(/\s+/g, ' ')` on the character list. -/
def collapseWs (cs : List Char) : List Char :=
  collapseWsGo cs false

/-- Whitespace normalisation of the duplicate-code fingerprint:
`body.replace(/\s+/g, ' ').trim()`. -/
def normalizeWs (body : String) : String :=
  trimStr (String.mk (collapseWs body.data))

/-- Duplicate Code pass of `detectCodeSmells` for one file: fingerprints
the 20-line window at every function start; a repeated fingerprint yields
a medium-severity smell pointing back at the first occurrence.  `seen` is
the `functionBodies` map (fingerprint to first line). -/
def duplicateGo (language file : String) : List String → Nat → List (String × Nat) → List CodeSmell → List CodeSmell
  | [], _, _, acc => acc
  | l :: rest, i, seen, acc =>
    if isFunctionStart l language then
      let body := joinWith "\n" ((l :: rest).take 20)
      let norm := normalizeWs body
      match seen.lookup norm with
      | some prevLine =>
        duplicateGo language file rest (i + 1) seen
          (acc ++ [{ type := "Duplicate Code", severity := "medium", file := file,
                     line := some (i + 1),
                     message := "Similar code found at line " ++ toString prevLine,
                     recommendation := "Extract common code into a shared function" }])
      | none => duplicateGo language file rest (i + 1) (seen ++ [(norm, i + 1)]) acc
    else duplicateGo language file rest (i + 1) seen acc

/-- Duplicate Code pass entry point. -/
def duplicateSmells (language file : String) (lines : List String) : List CodeSmell :=
  duplicateGo language file lines 0 [] []

/-- Large File pass of `detectCodeSmells` for one file: over 500 lines is
a smell, over 1000 lines a high-severity one. -/
def largeFileSmells (file : String) (lines : List String) : List CodeSmell :=
  if lines.length > 500 then
    [{ type := "Large File",
       severity := if lines.length > 1000 then "high" else "medium",
       file := file, line := none,
       message := "File has " ++ toString lines.length ++ " lines (threshold: 500)",
       recommendation := "Consider splitting this file into smaller modules" }]
  else []

/-- Whether a smell type is enabled: `!types || types.includes(t)`. -/
def smellEnabled (types : Option (List String)) (t : String) : Bool :=
  types.isNone || (types.getD []).contains t

/-- `CodeAnalyzer.detectCodeSmells`.  `files` carries, for each file the
glob found, its path and its content (the `readFileContent` result); a
file whose read fails is skipped by the source and is simply absent from
this list. -/
def detectCodeSmells (files : List (String × String)) (types : Option (List String)) : List CodeSmell :=
  files.foldl
    (fun smells pr =>
      let file := pr.1
      let lines := splitLines pr.2
      let language := detectLanguage file
      let s1 := if smellEnabled types "long-method" then
        smells ++ longMethodSmells language file lines else smells
      let s2 := if smellEnabled types "magic-number" then
        s1 ++ magicNumberSmells file lines else s1
      let s3 := if smellEnabled types "duplicate-code" then
        s2 ++ duplicateSmells language file lines else s2
      if smellEnabled types "large-file" then
        s3 ++ largeFileSmells file lines else s3)
    []

/-! ## CodeAnalyzer: test coverage (analyzeTestCoverage) -/

/-- Strip the first suffix of `sufs` that `s` ends with, if any; models
one anchored `String.replace(/...$/, '')` whose alternation expands to
`sufs` (the suffixes are pairwise non-overlapping, so at most one can
match). -/
def stripFirstSuffix (s : String) (sufs : List String) : String :=
  match sufs.find? (fun suf => endsWithStr s suf) with
  | some suf => String.mk (s.data.take (s.data.length - suf.data.length))
  | none => s

/-- Derived base name of a test file:
`.replace(/\.(test|spec)\.(js|ts)$/, '').replace(/_test\.(py|go|rs)$/, '').replace(/Test\.java$/, '')`. -/
def testBase (f : String) : String :=
  stripFirstSuffix
    (stripFirstSuffix
      (stripFirstSuffix f [".test.js", ".test.ts", ".spec.js", ".spec.ts"])
      ["_test.py", "_test.go", "_test.rs"])
    ["Test.java"]

/-- Derived base name of a source file:
`.replace(/\.(js|ts|jsx|tsx|py|java|go|rs)$/, '')`. -/
def codeBase (f : String) : String :=
  stripFirstSuffix f [".js", ".ts", ".jsx", ".tsx", ".py", ".java", ".go", ".rs"]

/-- The test-likeness filter applied before reporting a file as missing
coverage. -/
def looksLikeTestFile (f : String) : Bool :=
  hasSub f ".test." || hasSub f ".spec." || hasSub f "_test" || hasSub f "Test.java"

/-- Result object of `analyzeTestCoverage` (percentage exact, see
header). -/
structure CoverageReport where
  total : Nat
  covered : Nat
  percentage : ℚ
  files : List (String × Nat)
  missing : List String
deriving DecidableEq

/-- `CodeAnalyzer.analyzeTestCoverage`.  `codeFiles` and `testFiles` are
the two `findFiles` results (code-extension patterns and test-suffix
patterns respectively). -/
def analyzeTestCoverage (codeFiles testFiles : List String) : CoverageReport :=
  let testFileMap := testFiles.map testBase
  let coveredFiles := codeFiles.filter (fun f => testFileMap.contains (codeBase f))
  let missingFiles := codeFiles.filter
    (fun f => !testFileMap.contains (codeBase f) && !looksLikeTestFile f)
  let total := codeFiles.length
  let covered := coveredFiles.length
  let percentage : ℚ := if 0 < total then (covered : ℚ) / (total : ℚ) * 100 else 0
  { total := total
    covered := covered
    percentage := percentage
    files := codeFiles.map (fun f => (f, if testFileMap.contains (codeBase f) then 100 else 0))
    missing := missingFiles }

/-! ## Specification-side definitions

These restate the quantities the specification talks about, written from
the specification's wording, to be compared against the embedded source
functions. -/

/-- Number of positions at which `pat` occurs as a substring of `line`
(the per-occurrence count the specification describes for token
counting). -/
def occCount (pat line : String) : Nat :=
  (List.range (line.data.length + 1)).countP (fun i => pat.data.isPrefixOf (line.data.drop i))

/-- Score described by the amended claim: 1 plus, for every scanned line,
the number of distinct decision keywords occurring (as substrings) in
that line. -/
def specDistinctTokenScore (scanned : List String) : Nat :=
  1 + (scanned.map (fun l => decisionKeywords.countP (fun k => hasSub l k))).sum

/-- The slice of lines scanned for a narrowed range, in the
specification's terms. -/
def scannedSlice (lines : List String) (startLine endLine : Nat) : List String :=
  (lines.take endLine).drop startLine

/-- Preorder flattening of a `FileNode` forest (specification-side view of
"all nodes contained recursively in the tree"). -/
def flattenNodes : List FileNode → List FileNode
  | [] => []
  | FileNode.file n s e l :: rest => FileNode.file n s e l :: flattenNodes rest
  | FileNode.directory n cs :: rest =>
    FileNode.directory n cs :: (flattenNodes cs ++ flattenNodes rest)

/-- Whether a node is file-kind. -/
def isFileNode : FileNode → Bool
  | FileNode.file _ _ _ _ => true
  | FileNode.directory _ _ => false

/-- Whether every node of a forest, recursively, escapes the scanner's
ignore predicate. -/
def treeNamesOk : List FileNode → Bool
  | [] => true
  | FileNode.file name _ _ _ :: rest => !shouldIgnore name && treeNamesOk rest
  | FileNode.directory name cs :: rest =>
    !shouldIgnore name && treeNamesOk cs && treeNamesOk rest

/-! ## Helper lemmas -/

/-- Folding `+` from an initial value totals the initial value plus the
list sum (the `Array.prototype.reduce` pattern of the source). -/
theorem foldlAddEq : (l : List Nat) → (n : Nat) → l.foldl (· + ·) n = n + l.sum
  | [], n => by simp
  | a :: l, n => by
    simp only [List.foldl_cons, List.sum_cons, foldlAddEq l (n + a)]
    omega

/-- The counting loop equals the keyword-presence count of the scanned
slice. -/
theorem countDecisionsEq (lines : List String) (s e : Nat) :
    countDecisions lines s e = ((scannedSlice lines s e).map lineDecisionCount).sum := by
  unfold countDecisions scannedSlice
  rw [foldlAddEq]
  simp

/-- Keyword presence per line agrees with the `countP` phrasing used by
the specification-side score. -/
theorem lineDecisionCountEq (l : String) :
    lineDecisionCount l = decisionKeywords.countP (fun k => hasSub l k) := by
  unfold lineDecisionCount
  rw [List.countP_eq_length_filter]

/-- Whole-file scan: the loop total is the specification-side distinct
token score (minus the base 1). -/
theorem countDecisionsWholeFile (lines : List String) :
    1 + countDecisions lines 0 lines.length = specDistinctTokenScore lines := by
  rw [countDecisionsEq]
  unfold specDistinctTokenScore scannedSlice
  simp only [List.take_length, List.drop_zero]
  congr 2
  exact List.map_congr_left (fun l _ => lineDecisionCountEq l)

/-- Characterisation of the `low` bucket. -/
theorem levelLowIff (c : Nat) : complexityLevel c = "low" ↔ c ≤ 5 := by
  unfold complexityLevel
  split_ifs with h1 h2 h3
  · exact iff_of_true rfl h1
  · exact iff_of_false (by decide) (by omega)
  · exact iff_of_false (by decide) (by omega)
  · exact iff_of_false (by decide) (by omega)

/-- Characterisation of the `medium` bucket. -/
theorem levelMediumIff (c : Nat) : complexityLevel c = "medium" ↔ 5 < c ∧ c ≤ 10 := by
  unfold complexityLevel
  split_ifs with h1 h2 h3
  · exact iff_of_false (by decide) (by omega)
  · exact iff_of_true rfl ⟨by omega, h2⟩
  · exact iff_of_false (by decide) (by omega)
  · exact iff_of_false (by decide) (by omega)

/-- Characterisation of the `high` bucket. -/
theorem levelHighIff (c : Nat) : complexityLevel c = "high" ↔ 10 < c ∧ c ≤ 20 := by
  unfold complexityLevel
  split_ifs with h1 h2 h3
  · exact iff_of_false (by decide) (by omega)
  · exact iff_of_false (by decide) (by omega)
  · exact iff_of_true rfl ⟨by omega, h3⟩
  · exact iff_of_false (by decide) (by omega)

/-- Characterisation of the `very-high` bucket. -/
theorem levelVeryHighIff (c : Nat) : complexityLevel c = "very-high" ↔ 20 < c := by
  unfold complexityLevel
  split_ifs with h1 h2 h3
  · exact iff_of_false (by decide) (by omega)
  · exact iff_of_false (by decide) (by omega)
  · exact iff_of_false (by decide) (by omega)
  · exact iff_of_true rfl (by omega)

/-- Level bucket characterisation of `complexityLevel`. -/
theorem complexityLevelSpec (c : Nat) :
    (complexityLevel c = "low" ↔ c ≤ 5) ∧
    (complexityLevel c = "medium" ↔ 5 < c ∧ c ≤ 10) ∧
    (complexityLevel c = "high" ↔ 10 < c ∧ c ≤ 20) ∧
    (complexityLevel c = "very-high" ↔ 20 < c) :=
  ⟨levelLowIff c, levelMediumIff c, levelHighIff c, levelVeryHighIff c⟩

/-- Recommendations are only produced above complexity 10. -/
theorem complexityRecommendationsSpec (c : Nat) :
    complexityRecommendations c ≠ [] → 10 < c := by
  unfold complexityRecommendations
  split_ifs with h1 h2 <;> intro hne <;>
    first
      | omega
      | (exfalso; exact hne rfl)

/-- The result-shape invariant of both complexity calculators, as claimed
by the specification: integral score at least 1, the fixed level buckets,
and recommendations only above score 10. -/
def ComplexityInv (r : CodeComplexity) : Prop :=
  1 ≤ r.complexity ∧
  (r.level = "low" ↔ r.complexity ≤ 5) ∧
  (r.level = "medium" ↔ 5 < r.complexity ∧ r.complexity ≤ 10) ∧
  (r.level = "high" ↔ 10 < r.complexity ∧ r.complexity ≤ 20) ∧
  (r.level = "very-high" ↔ 20 < r.complexity) ∧
  (r.recommendations ≠ [] → 10 < r.complexity)

/-- Any result assembled by the shared tail of the calculators satisfies
the invariant. -/
theorem complexityInvMk (fp : String) (fn : Option String) (n : Nat) :
    ComplexityInv
      { file := fp, function := fn, complexity := 1 + n,
        level := complexityLevel (1 + n),
        recommendations := complexityRecommendations (1 + n) } := by
  refine ⟨Nat.le_add_right 1 n, ?_, ?_, ?_, ?_, ?_⟩
  · exact (complexityLevelSpec (1 + n)).1
  · exact (complexityLevelSpec (1 + n)).2.1
  · exact (complexityLevelSpec (1 + n)).2.2.1
  · exact (complexityLevelSpec (1 + n)).2.2.2
  · exact complexityRecommendationsSpec (1 + n)

/-- C9: every `CodeComplexity` returned by `calculateComplexity` (either
branch) has an integral score at least 1; its level is `low` iff the
score is at most 5, `medium` iff it lies in (5,10], `high` iff it lies in
(10,20], and `very-high` otherwise; and its recommendations are non-empty
only when the score exceeds 10. -/
theorem C9_complexity_invariants :
    (∀ (functions : List FuncInfo) (lines : List String) (functionName : Option String)
        (filePath : String) (r : CodeComplexity),
        calculateComplexity functions lines functionName filePath = Except.ok r →
        ComplexityInv r) ∧
    (∀ (lines : List String) (functionName : Option String) (filePath : String),
        ComplexityInv (calculateComplexityFallback lines functionName filePath)) := by
  constructor
  · intro functions lines functionName filePath r h
    cases functionName with
    | none =>
      simp only [calculateComplexity, Except.ok.injEq] at h
      exact h ▸ complexityInvMk filePath none _
    | some n =>
      simp only [calculateComplexity] at h
      cases hf : functions.find? (fun f => f.name == n) with
      | none => rw [hf] at h; exact absurd h (by simp)
      | some tf =>
        rw [hf] at h
        simp only [Except.ok.injEq] at h
        exact h ▸ complexityInvMk filePath (some n) _
  · intro lines functionName filePath
    unfold calculateComplexityFallback
    exact complexityInvMk filePath functionName _

/-- C9 witness: the invariant instantiated on concrete runs of both
branches. -/
theorem C9_witness :
    ComplexityInv
      ({ file := "f.js", function := none, complexity := 1, level := "low",
         recommendations := [] } : CodeComplexity) ∧
    ComplexityInv (calculateComplexityFallback ["x"] none "f.js") :=
  ⟨C9_complexity_invariants.1 [] [] none "f.js" _ rfl,
   C9_complexity_invariants.2 ["x"] none "f.js"⟩

/-- C1 counterexample: a file whose content holds exactly two `if`
occurrences and one `&&` occurrence (certified by the per-occurrence
counts below), but with both `if` occurrences on the same line.  The
claim demands score 4; `calculateComplexity` returns 3, because
`line.includes(keyword)` increments once per keyword present in a line,
not once per occurrence. -/
theorem C1_per_occurrence_counterexample :
    ((["if (a) x if (b) y", "p && q"].map (fun l => occCount "if" l)).sum = 2) ∧
    ((["if (a) x if (b) y", "p && q"].map (fun l => occCount "&&" l)).sum = 1) ∧
    (["else", "while", "for", "switch", "case", "catch", "||", "?", "??"].all
      (fun k => (["if (a) x if (b) y", "p && q"].map (fun l => occCount k l)).sum == 0) = true) ∧
    calculateComplexity [] ["if (a) x if (b) y", "p && q"] none "t.js" =
      Except.ok { file := "t.js", function := none, complexity := 3, level := "low",
                  recommendations := [] } :=
  ⟨by decide, by decide, by decide, rfl⟩

/-- Equality of the counting pass on any slice with the
specification-side distinct-token score of that slice. -/
theorem countDecisionsSlice (lines : List String) (s e : Nat) :
    1 + countDecisions lines s e = specDistinctTokenScore (scannedSlice lines s e) := by
  rw [countDecisionsEq]
  unfold specDistinctTokenScore
  congr 2
  exact List.map_congr_left (fun l _ => lineDecisionCountEq l)

/-- C1 (amended): the score returned by `calculateComplexity` equals 1
plus, per scanned line, the number of distinct decision keywords present
in that line via substring search — a line containing several distinct
tokens increments once per distinct token, but repeated occurrences of
the same token in one line count once.  Holds for the whole-file scan of
both branches and for the narrowed range of the structured branch; the
specification's concrete example (two `if` statements and one `&&`)
yields score 4 and level `low` when the two `if` occurrences lie on
different lines. -/
theorem C1_distinct_tokens_per_line :
    (∀ (functions : List FuncInfo) (lines : List String) (filePath : String),
        calculateComplexity functions lines none filePath =
          Except.ok
            { file := filePath, function := none,
              complexity := specDistinctTokenScore lines,
              level := complexityLevel (specDistinctTokenScore lines),
              recommendations := complexityRecommendations (specDistinctTokenScore lines) }) ∧
    (∀ (lines : List String) (filePath : String),
        calculateComplexityFallback lines none filePath =
          { file := filePath, function := none,
            complexity := specDistinctTokenScore lines,
            level := complexityLevel (specDistinctTokenScore lines),
            recommendations := complexityRecommendations (specDistinctTokenScore lines) }) ∧
    (∀ (functions : List FuncInfo) (lines : List String) (n : String) (filePath : String)
        (tf : FuncInfo),
        functions.find? (fun f => f.name == n) = some tf →
        calculateComplexity functions lines (some n) filePath =
          Except.ok
            { file := filePath, function := some n,
              complexity :=
                specDistinctTokenScore
                  (scannedSlice lines (tf.line - 1) (findEndLine lines (tf.line - 1))),
              level :=
                complexityLevel
                  (specDistinctTokenScore
                    (scannedSlice lines (tf.line - 1) (findEndLine lines (tf.line - 1)))),
              recommendations :=
                complexityRecommendations
                  (specDistinctTokenScore
                    (scannedSlice lines (tf.line - 1) (findEndLine lines (tf.line - 1)))) }) ∧
    calculateComplexity [] ["if (a)", "if (b && c)"] none "ex.js" =
      Except.ok { file := "ex.js", function := none, complexity := 4, level := "low",
                  recommendations := [] } := by
  have hwhole : ∀ (lines : List String),
      specDistinctTokenScore lines = 1 + countDecisions lines 0 lines.length := by
    intro lines
    rw [countDecisionsSlice]
    unfold scannedSlice
    simp
  refine ⟨?_, ?_, ?_, rfl⟩
  · intro functions lines filePath
    simp only [calculateComplexity, hwhole lines]
  · intro lines filePath
    simp only [calculateComplexityFallback, hwhole lines]
  · intro functions lines n filePath tf hf
    simp only [calculateComplexity, hf, countDecisionsSlice]

/-- C1 witness: the narrowed-range conjunct instantiated on a concrete
file with the requested function present. -/
theorem C1_witness :
    ([({ name := "g", line := 1 } : FuncInfo)].find? (fun f => f.name == "g") =
      some { name := "g", line := 1 }) ∧
    calculateComplexity [{ name := "g", line := 1 }] ["function g() x", "if (a) y"]
        (some "g") "w.js" =
      Except.ok
        { file := "w.js", function := some "g",
          complexity :=
            specDistinctTokenScore
              (scannedSlice ["function g() x", "if (a) y"] 0
                (findEndLine ["function g() x", "if (a) y"] 0)),
          level := "low",
          recommendations := [] } := by
  constructor
  · rfl
  · exact C1_distinct_tokens_per_line.2.2.1 [{ name := "g", line := 1 }]
      ["function g() x", "if (a) y"] "g" "w.js" { name := "g", line := 1 } rfl

/-- C5 counterexample: in fallback mode, a requested function name absent
from the file (the textual search finds no line) does not fail — the
claim demands an error in both modes, but `calculateComplexityFallback`
has no failure path at all and returns a whole-file `CodeComplexity`. -/
theorem C5_fallback_no_error_counterexample :
    (["x"].findIdx? (fallbackMatchLine "g") = none) ∧
    calculateComplexityFallback ["x"] (some "g") "f.js" =
      { file := "f.js", function := some "g", complexity := 1, level := "low",
        recommendations := [] } :=
  ⟨rfl, rfl⟩

/-- C5 (amended): in the structured branch, a supplied function name
absent from the extracted declarations makes `calculateComplexity` fail
with the not-found error; in the fallback branch, the same situation
silently degrades to the whole-file scan and returns a `CodeComplexity`
carrying the requested name. -/
theorem C5_missing_function_behaviour :
    (∀ (functions : List FuncInfo) (lines : List String) (n : String) (filePath : String),
        functions.find? (fun f => f.name == n) = none →
        calculateComplexity functions lines (some n) filePath =
          Except.error ("Function " ++ n ++ " not found in " ++ filePath)) ∧
    (∀ (lines : List String) (n : String) (filePath : String),
        lines.findIdx? (fallbackMatchLine n) = none →
        calculateComplexityFallback lines (some n) filePath =
          { file := filePath, function := some n,
            complexity := 1 + countDecisions lines 0 lines.length,
            level := complexityLevel (1 + countDecisions lines 0 lines.length),
            recommendations :=
              complexityRecommendations (1 + countDecisions lines 0 lines.length) }) := by
  constructor
  · intro functions lines n filePath h
    simp only [calculateComplexity, h]
  · intro lines n filePath h
    simp only [calculateComplexityFallback, fallbackRange, h]

/-- C5 witness: both conjuncts instantiated on a file without the
requested function. -/
theorem C5_witness :
    calculateComplexity [] ["x"] (some "g") "f.js" =
      Except.error ("Function " ++ "g" ++ " not found in " ++ "f.js") ∧
    calculateComplexityFallback ["x"] (some "g") "f.js" =
      { file := "f.js", function := some "g",
        complexity := 1 + countDecisions ["x"] 0 (["x"] : List String).length,
        level := complexityLevel (1 + countDecisions ["x"] 0 (["x"] : List String).length),
        recommendations :=
          complexityRecommendations (1 + countDecisions ["x"] 0 (["x"] : List String).length) } :=
  ⟨C5_missing_function_behaviour.1 [] ["x"] "g" "f.js" rfl,
   C5_missing_function_behaviour.2 ["x"] "g" "f.js" rfl⟩

/-! ## Dependency-graph claims -/

/-- C2: for the three-file JavaScript project whose import strings equal
the other files' project-relative node keys (edges a.js→b.js, b.js→c.js,
c.js→a.js, with DFS starting from the nodes in listing order),
`analyzeDependencies` returns a graph whose `circular` field holds
exactly one cycle: the DFS path from the repeated node's first
occurrence, closed by re-appending that node. -/
theorem C2_three_file_cycle :
    (analyzeDependencies "/project" true none
        [{ name := "a.js", relPath := "a.js", parsed := some ["b.js"] },
         { name := "b.js", relPath := "b.js", parsed := some ["c.js"] },
         { name := "c.js", relPath := "c.js", parsed := some ["a.js"] }]).toOption.map
      DependencyGraph.circular = some [["a.js", "b.js", "c.js", "a.js"]] := rfl

/-- C3 counterexample: with an existing root but a nonexistent explicit
file argument, `analyzeDependencies` does not fail with a NotFound error
as the claim demands — the file-existence probe merely leaves the
analysis set empty, and the call succeeds with an empty graph. -/
theorem C3_missing_file_counterexample :
    analyzeDependencies "/project" true
        (some (false, { name := "ghost.js", relPath := "ghost.js", parsed := some [] }))
        [{ name := "a.js", relPath := "a.js", parsed := some [] }] =
      Except.ok { nodes := [], edges := [], circular := [] } := rfl

/-- C3 (amended): `analyzeDependencies` fails with the NotFound error
exactly when the root path does not exist; a nonexistent explicit file
argument is not an error — the call returns an empty dependency graph. -/
theorem C3_missing_path_behaviour :
    (∀ (projectPath : String) (fileSel : Option (Bool × SourceFile))
        (projectFiles : List SourceFile),
        analyzeDependencies projectPath false fileSel projectFiles =
          Except.error ("Project path does not exist: " ++ projectPath)) ∧
    (∀ (projectPath : String) (sf : SourceFile) (projectFiles : List SourceFile),
        analyzeDependencies projectPath true (some (false, sf)) projectFiles =
          Except.ok { nodes := [], edges := [], circular := [] }) :=
  ⟨fun _ _ _ => rfl, fun _ _ _ => rfl⟩

/-! ## Scanner pruning claims -/

mutual

/-- Every tree built by `buildFileTree` contains only nodes whose names
escape the ignore predicate. -/
theorem buildFileTreeNamesOk (dirPath : String) (maxDepth currentDepth : Nat) :
    (es : List FsEntry) → treeNamesOk (buildFileTree dirPath maxDepth currentDepth es) = true
  | es => by
    unfold buildFileTree
    by_cases hg : currentDepth ≥ maxDepth
    · simp [hg, treeNamesOk]
    · simp only [hg, if_false]
      exact buildNodesNamesOk dirPath maxDepth currentDepth es

/-- Loop version of `buildFileTreeNamesOk` over the entry list. -/
theorem buildNodesNamesOk (dirPath : String) (maxDepth currentDepth : Nat) :
    (es : List FsEntry) → treeNamesOk (buildNodes dirPath maxDepth currentDepth es) = true
  | [] => by simp [buildNodes, treeNamesOk]
  | FsEntry.file name size :: rest => by
    have hr := buildNodesNamesOk dirPath maxDepth currentDepth rest
    by_cases h : shouldIgnore name
    · simp [buildNodes, h, hr]
    · simp [buildNodes, h, treeNamesOk, hr]
  | FsEntry.dir name sub :: rest => by
    have hr := buildNodesNamesOk dirPath maxDepth currentDepth rest
    have hs := buildFileTreeNamesOk (dirPath ++ "/" ++ name) maxDepth (currentDepth + 1) sub
    by_cases h : shouldIgnore name
    · simp [buildNodes, h, hr]
    · simp [buildNodes, h, treeNamesOk, hr, hs]

end

/-- C4 counterexample: a dot-named file is pruned from the tree but its
bytes still enter `totalSize` (here they are the whole total), and the
contents of a dot-named directory are likewise counted — contradicting
the claim that such bytes never contribute to the aggregate. -/
theorem C4_dot_entry_size_counterexample :
    buildFileTree "/r" 10 0 [FsEntry.file ".env" 7] = [] ∧
    getDirectorySize [FsEntry.file ".env" 7] = 7 ∧
    getDirectorySize [FsEntry.dir ".git" [FsEntry.file "a" 5]] = 5 := by
  refine ⟨?_, ?_, ?_⟩
  · have h : shouldIgnore ".env" = true := by decide
    simp [buildFileTree, buildNodes, h]
  · simp [getDirectorySize]
  · have h : (".git" == "node_modules" || ".git" == "dist" || ".git" == "build") = false := by
      decide
    simp [getDirectorySize, h]

/-- C4 (amended): dot-named entries and the fixed ignore names are pruned
from the returned `FileNode` tree, but the `totalSize` walk excludes only
directories named `node_modules`, `dist` or `build`: file entries always
contribute their bytes, and any other directory — dot-named ones
included — contributes its recursive size. -/
theorem C4_pruning_scope :
    (∀ (dirPath : String) (maxDepth currentDepth : Nat) (entries : List FsEntry),
        treeNamesOk (buildFileTree dirPath maxDepth currentDepth entries) = true) ∧
    (∀ (name : String) (size : Nat) (rest : List FsEntry),
        getDirectorySize (FsEntry.file name size :: rest) = size + getDirectorySize rest) ∧
    (∀ (name : String) (sub rest : List FsEntry),
        name ≠ "node_modules" → name ≠ "dist" → name ≠ "build" →
        getDirectorySize (FsEntry.dir name sub :: rest) =
          getDirectorySize sub + getDirectorySize rest) ∧
    (∀ (name : String) (sub rest : List FsEntry),
        name = "node_modules" ∨ name = "dist" ∨ name = "build" →
        getDirectorySize (FsEntry.dir name sub :: rest) = getDirectorySize rest) := by
  refine ⟨fun d m c es => buildFileTreeNamesOk d m c es, fun _ _ _ => by simp [getDirectorySize], ?_, ?_⟩
  · intro name sub rest h1 h2 h3
    simp [getDirectorySize, h1, h2, h3]
  · intro name sub rest h
    rcases h with h | h | h <;> subst h <;> simp [getDirectorySize]

/-- C4 witness: the amended statement instantiated on concrete listings,
discharging the name hypotheses. -/
theorem C4_witness :
    treeNamesOk (buildFileTree "/r" 10 0 [FsEntry.dir ".git" [FsEntry.file "a" 5]]) = true ∧
    getDirectorySize (FsEntry.file ".env" 7 :: []) = 7 + getDirectorySize [] ∧
    getDirectorySize (FsEntry.dir ".git" [FsEntry.file "a" 5] :: []) =
      getDirectorySize [FsEntry.file "a" 5] + getDirectorySize [] ∧
    getDirectorySize (FsEntry.dir "dist" [FsEntry.file "a" 5] :: []) = getDirectorySize [] :=
  ⟨C4_pruning_scope.1 "/r" 10 0 [FsEntry.dir ".git" [FsEntry.file "a" 5]],
   C4_pruning_scope.2.1 ".env" 7 [],
   C4_pruning_scope.2.2.1 ".git" [FsEntry.file "a" 5] [] (by decide) (by decide) (by decide),
   C4_pruning_scope.2.2.2 "dist" [FsEntry.file "a" 5] [] (Or.inr (Or.inl rfl))⟩

/-! ## Structural-consistency claim for the scanner -/

/-- The source's file counter agrees with the specification-side count of
file-kind nodes in the flattened tree. -/
theorem countFilesFlatten : (ns : List FileNode) →
    countFiles ns = (flattenNodes ns).countP isFileNode
  | [] => by simp [countFiles, flattenNodes]
  | FileNode.file n s e l :: rest => by
    simp [countFiles, flattenNodes, List.countP_cons, isFileNode,
      countFilesFlatten rest]
    omega
  | FileNode.directory n cs :: rest => by
    simp [countFiles, flattenNodes, List.countP_cons, List.countP_append, isFileNode,
      countFilesFlatten cs, countFilesFlatten rest]

/-- C6: the `totalFiles` field of every `ProjectStructure` returned by
the scanner equals the number of file-kind nodes contained recursively in
the returned `files` tree. -/
theorem C6_totalFiles_counts_file_nodes :
    ∀ (rootExists : Bool) (entries : List FsEntry) (projectPath : String) (maxDepth : Nat)
      (ps : ProjectStructure),
      analyzeProjectStructure rootExists entries projectPath maxDepth = Except.ok ps →
      ps.totalFiles = (flattenNodes ps.files).countP isFileNode := by
  intro rootExists entries projectPath maxDepth ps h
  cases rootExists with
  | false => simp [analyzeProjectStructure] at h
  | true =>
    simp only [analyzeProjectStructure, Bool.not_true, Bool.false_eq_true, if_false,
      Except.ok.injEq] at h
    rw [← h]
    exact countFilesFlatten _

/-- Concrete listing for the C6 witness. -/
def c6Entries : List FsEntry := [FsEntry.file "notes.txt" 3]

/-- The structure the scanner returns for `c6Entries`. -/
def c6Structure : ProjectStructure :=
  { path := "/r", files := [FileNode.file "notes.txt" 3 "txt" "Unknown"],
    totalFiles := 1, totalSize := 3, languages := [] }

/-- C6 witness: the claim instantiated on a one-file scan, with the
`Except.ok` hypothesis discharged by evaluation. -/
theorem C6_witness :
    analyzeProjectStructure true c6Entries "/r" 10 = Except.ok c6Structure ∧
    c6Structure.totalFiles = (flattenNodes c6Structure.files).countP isFileNode := by
  have h : analyzeProjectStructure true c6Entries "/r" 10 = Except.ok c6Structure := by
    have hig : shouldIgnore "notes.txt" = false := by decide
    have hext : getFileExtension "/r/notes.txt" = "txt" := by decide
    have hlang : detectLanguage "/r/notes.txt" = "Unknown" := by decide
    simp [analyzeProjectStructure, buildFileTree, buildNodes, getDirectorySize,
      countFiles, analyzeLanguages, collectLanguageCounts, c6Entries, c6Structure,
      hig, hext, hlang]
  exact ⟨h, C6_totalFiles_counts_file_nodes true c6Entries "/r" 10 c6Structure h⟩

/-! ## Language-percentage claim -/

/-- The second half of `analyzeLanguages` (statistics from the language
counts), named for the proofs below. -/
def languageStatsOf (counts : List (String × Nat × Nat)) : List LanguageStats :=
  let totalFiles : Nat := (counts.map (fun p => p.2.1)).foldl (· + ·) 0
  counts.map (fun p =>
    { language := p.1
      files := p.2.1
      lines := p.2.2
      percentage := if 0 < totalFiles then (p.2.1 : ℚ) / (totalFiles : ℚ) * 100 else 0 })

/-- `analyzeLanguages` factors through `languageStatsOf`. -/
theorem analyzeLanguagesEq (nodes : List FileNode) :
    analyzeLanguages nodes = languageStatsOf (collectLanguageCounts nodes []) := rfl

/-- `bumpLanguage` preserves positivity of every file count. -/
theorem bumpLanguagePos : (acc : List (String × Nat × Nat)) → (lang : String) →
    (∀ p ∈ acc, 1 ≤ p.2.1) → ∀ p ∈ bumpLanguage acc lang, 1 ≤ p.2.1
  | [], lang, _ => by simp [bumpLanguage]
  | (l, f, ln) :: rest, lang, h => by
    by_cases hl : l == lang
    · simp only [bumpLanguage, hl, if_true]
      intro p hp
      rcases List.mem_cons.1 hp with hp | hp
      · subst hp; simp
      · exact h p (List.mem_cons_of_mem _ hp)
    · simp only [bumpLanguage, hl, if_false]
      intro p hp
      rcases List.mem_cons.1 hp with hp | hp
      · subst hp; exact h _ (List.mem_cons_self _ _)
      · exact bumpLanguagePos rest lang (fun q hq => h q (List.mem_cons_of_mem _ hq)) p hp

/-- Every count accumulated by `processNodeSync` is at least 1: entries
are only created with count 1 and only ever incremented. -/
theorem collectLanguageCountsPos : (ns : List FileNode) → (acc : List (String × Nat × Nat)) →
    (∀ p ∈ acc, 1 ≤ p.2.1) → ∀ p ∈ collectLanguageCounts ns acc, 1 ≤ p.2.1
  | [], acc, h => by simpa [collectLanguageCounts] using h
  | FileNode.file n s e lang :: rest, acc, h => by
    simp only [collectLanguageCounts]
    apply collectLanguageCountsPos rest
    split
    · exact bumpLanguagePos acc lang h
    · exact h
  | FileNode.directory n cs :: rest, acc, h => by
    simp only [collectLanguageCounts]
    exact collectLanguageCountsPos rest _ (collectLanguageCountsPos cs acc h)

/-- Distributing a common rational factor over the summed counts. -/
theorem sumMapDivMul (l : List (String × Nat × Nat)) (T : ℚ) :
    (l.map (fun p => (p.2.1 : ℚ) / T * 100)).sum =
      (((l.map (fun p => p.2.1)).sum : Nat) : ℚ) / T * 100 := by
  induction l with
  | nil => simp
  | cons a l ih =>
    simp only [List.map_cons, List.sum_cons, ih]
    push_cast
    ring

/-- The percentage list produced from positive counts sums to exactly
100. -/
theorem languageStatsSum (counts : List (String × Nat × Nat))
    (hpos : ∀ p ∈ counts, 1 ≤ p.2.1) (hne : counts ≠ []) :
    ((languageStatsOf counts).map LanguageStats.percentage).sum = 100 := by
  unfold languageStatsOf
  have hTsum : (counts.map (fun p => p.2.1)).foldl (· + ·) 0 =
      (counts.map (fun p => p.2.1)).sum := by
    rw [foldlAddEq]
    exact Nat.zero_add _
  obtain ⟨a, l, hal⟩ := List.exists_cons_of_ne_nil hne
  have ha : 1 ≤ a.2.1 := hpos a (hal ▸ List.mem_cons_self a l)
  have hTpos : 0 < (counts.map (fun p => p.2.1)).foldl (· + ·) 0 := by
    rw [hTsum, hal]
    simp only [List.map_cons, List.sum_cons]
    omega
  rw [List.map_map]
  have hcomp : ∀ (T : Nat),
      (LanguageStats.percentage ∘ fun p : String × Nat × Nat =>
        ({ language := p.1, files := p.2.1, lines := p.2.2,
           percentage := if 0 < T then (p.2.1 : ℚ) / (T : ℚ) * 100 else 0 } :
          LanguageStats)) =
      fun p : String × Nat × Nat =>
        if 0 < T then (p.2.1 : ℚ) / (T : ℚ) * 100 else 0 :=
    fun T => rfl
  rw [hcomp]
  simp only [if_pos hTpos]
  rw [sumMapDivMul, hTsum]
  have hT0 : (((counts.map (fun p => p.2.1)).sum : Nat) : ℚ) ≠ 0 := by
    rw [hTsum] at hTpos
    exact_mod_cast Nat.ne_of_gt hTpos
  rw [div_self hT0, one_mul]

/-- C7: for every scan with a non-empty classified file set (equivalently
a non-empty statistics list), the `percentage` fields across all returned
`LanguageStats` entries sum to exactly 100. -/
theorem C7_percentages_sum_to_100 :
    ∀ (nodes : List FileNode),
      analyzeLanguages nodes ≠ [] →
      ((analyzeLanguages nodes).map LanguageStats.percentage).sum = 100 := by
  intro nodes hne
  rw [analyzeLanguagesEq] at hne ⊢
  apply languageStatsSum
  · exact collectLanguageCountsPos nodes [] (by simp)
  · intro hnil
    apply hne
    unfold languageStatsOf
    rw [hnil]
    rfl

/-- C7 witness: a scan with one classified JavaScript file. -/
theorem C7_witness :
    analyzeLanguages [FileNode.file "a.js" 1 "js" "JavaScript"] ≠ [] ∧
    ((analyzeLanguages [FileNode.file "a.js" 1 "js" "JavaScript"]).map
      LanguageStats.percentage).sum = 100 := by
  have hne : analyzeLanguages [FileNode.file "a.js" 1 "js" "JavaScript"] ≠ [] := by
    rw [analyzeLanguagesEq]
    have hc : collectLanguageCounts [FileNode.file "a.js" 1 "js" "JavaScript"] [] =
        [("JavaScript", 1, 0)] := by
      simp [collectLanguageCounts, bumpLanguage]
    rw [hc]
    intro h
    exact absurd h (by simp [languageStatsOf])
  exact ⟨hne, C7_percentages_sum_to_100 _ hne⟩

/-! ## Test-coverage claims -/

/-- Membership formulation of `List.contains` on strings. -/
theorem containsIffMem (l : List String) (x : String) :
    l.contains x = true ↔ x ∈ l := by
  induction l with
  | nil => simp
  | cons a l ih =>
    simp only [List.contains_cons, Bool.or_eq_true, beq_iff_eq, List.mem_cons, ih]

/-- Content of the synthetic 600-line file used by the C8 witness
scenario. -/
def c8BigContent : String := joinWith "\n" (List.replicate 600 "x")

/-- C8: `analyzeTestCoverage` marks a source file covered (coverage 100
in its per-file list) exactly when some found test file's derived base
name equals the source file's stripped base name; concretely, `foo.js`
with sibling `foo.test.js` is covered, while a 600-line `big.js` without
a test counterpart lands in the `missing` list and in the Large File
smell list of `detectCodeSmells`. -/
theorem C8_coverage_iff_test_base_match :
    (∀ (codeFiles testFiles : List String) (f : String),
        ((f, 100) ∈ (analyzeTestCoverage codeFiles testFiles).files ↔
          f ∈ codeFiles ∧ ∃ t ∈ testFiles, testBase t = codeBase f)) ∧
    ("foo.js", 100) ∈
      (analyzeTestCoverage ["foo.js", "foo.test.js", "big.js"] ["foo.test.js"]).files ∧
    "big.js" ∈
      (analyzeTestCoverage ["foo.js", "foo.test.js", "big.js"] ["foo.test.js"]).missing ∧
    ({ type := "Large File", severity := "medium", file := "big.js", line := none,
       message := "File has 600 lines (threshold: 500)",
       recommendation := "Consider splitting this file into smaller modules" } :
        CodeSmell) ∈
      detectCodeSmells [("foo.js", "x"), ("foo.test.js", "x"), ("big.js", c8BigContent)]
        none := by
  refine ⟨?_, by decide, by decide, by decide⟩
  intro codeFiles testFiles f
  simp only [analyzeTestCoverage, List.mem_map]
  constructor
  · rintro ⟨g, hg, heq⟩
    rw [Prod.mk.injEq] at heq
    obtain ⟨rfl, h2⟩ := heq
    refine ⟨hg, ?_⟩
    by_cases hc : (testFiles.map testBase).contains (codeBase g) = true
    · rcases List.mem_map.1 ((containsIffMem _ _).1 hc) with ⟨t, ht, hbase⟩
      exact ⟨t, ht, hbase⟩
    · rw [if_neg hc] at h2
      exact absurd h2 (by decide)
  · rintro ⟨hf, t, ht, hbase⟩
    have hc : (testFiles.map testBase).contains (codeBase f) = true :=
      (containsIffMem _ _).2 (List.mem_map.2 ⟨t, ht, hbase⟩)
    exact ⟨f, hf, by rw [if_pos hc]⟩

/-- C10: invariants of every coverage report — `covered` never exceeds
`total`; `total` counts all found code files (test files included);
`percentage` is `covered / total * 100` for non-empty file sets and `0`
otherwise, hence always lies within [0, 100]; and no path reported in
`missing` contains any of the test-file markers. -/
theorem C10_coverage_invariants :
    ∀ (codeFiles testFiles : List String),
      (analyzeTestCoverage codeFiles testFiles).covered ≤
        (analyzeTestCoverage codeFiles testFiles).total ∧
      (analyzeTestCoverage codeFiles testFiles).total = codeFiles.length ∧
      (0 < (analyzeTestCoverage codeFiles testFiles).total →
        (analyzeTestCoverage codeFiles testFiles).percentage =
          ((analyzeTestCoverage codeFiles testFiles).covered : ℚ) /
            ((analyzeTestCoverage codeFiles testFiles).total : ℚ) * 100) ∧
      ((analyzeTestCoverage codeFiles testFiles).total = 0 →
        (analyzeTestCoverage codeFiles testFiles).percentage = 0) ∧
      0 ≤ (analyzeTestCoverage codeFiles testFiles).percentage ∧
      (analyzeTestCoverage codeFiles testFiles).percentage ≤ 100 ∧
      (∀ f ∈ (analyzeTestCoverage codeFiles testFiles).missing,
        hasSub f ".test." = false ∧ hasSub f ".spec." = false ∧
        hasSub f "_test" = false ∧ hasSub f "Test.java" = false) := by
  intro codeFiles testFiles
  have hct : (analyzeTestCoverage codeFiles testFiles).covered ≤
      (analyzeTestCoverage codeFiles testFiles).total :=
    List.length_filter_le _ _
  refine ⟨hct, rfl, ?_, ?_, ?_, ?_, ?_⟩
  · intro hpos
    have hpos2 : 0 < codeFiles.length := hpos
    show (if 0 < codeFiles.length then _ else (0 : ℚ)) = _
    rw [if_pos hpos2]
    rfl
  · intro h0
    have h02 : codeFiles.length = 0 := h0
    show (if 0 < codeFiles.length then _ else (0 : ℚ)) = 0
    rw [if_neg (by omega)]
  · show (0 : ℚ) ≤ if 0 < codeFiles.length then _ else 0
    by_cases hpos : 0 < codeFiles.length
    · rw [if_pos hpos]
      positivity
    · rw [if_neg hpos]
  · show (if 0 < codeFiles.length then _ else (0 : ℚ)) ≤ 100
    by_cases hpos : 0 < codeFiles.length
    · rw [if_pos hpos]
      have h1 : ((analyzeTestCoverage codeFiles testFiles).covered : ℚ) /
          (codeFiles.length : ℚ) ≤ 1 :=
        div_le_one_of_le₀ (by exact_mod_cast hct) (by positivity)
      calc ((analyzeTestCoverage codeFiles testFiles).covered : ℚ) /
            (codeFiles.length : ℚ) * 100 ≤ 1 * 100 :=
              mul_le_mul_of_nonneg_right h1 (by norm_num)
        _ = 100 := one_mul 100
    · rw [if_neg hpos]
      norm_num
  · intro f hf
    have hp := (List.mem_filter.1 hf).2
    simp only [Bool.and_eq_true, Bool.not_eq_true'] at hp
    have hlt : looksLikeTestFile f = false := hp.2
    have h4 : ((hasSub f ".test." = false ∧ hasSub f ".spec." = false) ∧
        hasSub f "_test" = false) ∧ hasSub f "Test.java" = false := by
      simpa [looksLikeTestFile, Bool.or_eq_false_iff] using hlt
    exact ⟨h4.1.1.1, h4.1.1.2, h4.1.2, h4.2⟩

/-- C10 witness: the invariants applied to a one-file project with no
tests, discharging the positivity hypothesis and a concrete `missing`
membership. -/
theorem C10_witness :
    (analyzeTestCoverage ["a.js"] []).percentage =
      ((analyzeTestCoverage ["a.js"] []).covered : ℚ) /
        ((analyzeTestCoverage ["a.js"] []).total : ℚ) * 100 ∧
    (hasSub "a.js" ".test." = false ∧ hasSub "a.js" ".spec." = false ∧
      hasSub "a.js" "_test" = false ∧ hasSub "a.js" "Test.java" = false) :=
  ⟨(C10_coverage_invariants ["a.js"] []).2.2.1 (by decide),
   (C10_coverage_invariants ["a.js"] []).2.2.2.2.2.2 "a.js" (by decide)⟩
